import Mathlib

/-!
Verification of the adimology stock-dashboard repository.

This file gives a shallow embedding, in Lean 4, of the parts of the code
that the checked claims are about:

* the Stockbit client helpers (src/lib/stockbit.ts, given as
  src/unnamed/part_000, and its duplicated older variant
  src/unnamed/part_005): getAuthToken, handleApiResponse, getTopBroker,
  getBrokerSummary;
* the Supabase persistence layer (src/unnamed/part_004): the
  stock_queries upsert used by saveStockQuery and saveWatchlistAnalysis,
  getSessionValue, invalidateToken, updatePreviousDayRealPrice, and the
  background_job_logs operations;
* the background watchlist batch job
  (src/netlify/functions/analyze-watchlist-background.ts): the per-symbol
  loop, its per-symbol try/catch, and the top-level catch;
* the single-stock analysis route (src/app/api/stock/route.ts).

JavaScript numbers are embedded as rationals (the values handled here are
exact decimals, and no claim depends on binary floating point rounding).
External I/O (HTTP fetches, the hosted Postgres backend) is embedded by
explicit state passing: database tables are lists of rows, and the result
of each network fetch is an oracle input to the function that awaits it.
Thrown exceptions are embedded as Except values.
-/

namespace Adimology

/-- JS Math.round: round half toward positive infinity. -/
def jsRound (x : ℚ) : ℤ := ⌊x + 1 / 2⌋

/-- JS truthiness of a nullable string: null/undefined and the empty
string are falsy, every other string is truthy. -/
def jsTruthyStr : Option String → Bool
  | none => false
  | some s => s != ""

/-! ## Data model of the Stockbit market-detector response

Mirrors the types in src/unnamed/part_002. The fields that the defensive
code of part_000 reads through optional chaining are embedded as Option,
since the claims are about responses in which they are missing. The string
encoded numeric fields bval, blot and netbs_buy_avg_price are embedded by
their numeric value (the code always reads them through Number(...)); a
brokers_buy value that is not an array is embedded as none, because the
source guard (!brokers || !Array.isArray(brokers) || brokers.length === 0)
treats it exactly like a missing one. -/

structure BrokerBuyItem where
  netbs_broker_code : String
  bval : ℚ
  blot : ℚ
  netbs_buy_avg_price : ℚ
  type : String
  deriving DecidableEq

structure BrokerSellItem where
  netbs_broker_code : String
  sval : ℚ
  slot : ℚ
  netbs_sell_avg_price : ℚ
  type : String
  deriving DecidableEq

structure BrokerTopStat where
  vol : ℚ
  percent : ℚ
  amount : ℚ
  accdist : String
  deriving DecidableEq

structure BrokerDetector where
  top1 : BrokerTopStat
  top3 : BrokerTopStat
  top5 : BrokerTopStat
  avg : BrokerTopStat
  total_buyer : ℚ
  total_seller : ℚ
  number_broker_buysell : ℚ
  broker_accdist : String
  volume : ℚ
  value : ℚ
  average : ℚ
  deriving DecidableEq

structure BrokerSummaryRaw where
  brokers_buy : Option (List BrokerBuyItem)
  brokers_sell : Option (List BrokerSellItem)
  deriving DecidableEq

structure MarketDetectorPayload where
  broker_summary : Option BrokerSummaryRaw
  bandar_detector : Option BrokerDetector
  deriving DecidableEq

structure MarketDetectorResponse where
  data : Option MarketDetectorPayload
  deriving DecidableEq

/-- Result type of getTopBroker (BrokerData in src/unnamed/part_002).
The source rounds blot and netbs_buy_avg_price with Math.round, so the
two numeric fields are integers. -/
structure BrokerData where
  bandar : String
  barangBandar : ℤ
  rataRataBandar : ℤ
  deriving DecidableEq

/-- The value of marketDetectorData?.data?.broker_summary?.brokers_buy. -/
def buyListOf (r : MarketDetectorResponse) : Option (List BrokerBuyItem) :=
  (r.data.bind fun d => d.broker_summary).bind fun s => s.brokers_buy

/-- Comparator of the source sort call
(a, b) => Number(b.bval) - Number(a.bval): an item a may stay before b
exactly when b.bval is at most a.bval (descending order by bval). -/
def bvalDescLe (a b : BrokerBuyItem) : Bool := decide (b.bval ≤ a.bval)

/-- Body of getTopBroker on the brokers array (src/unnamed/part_000 lines
273 to 286), returning also the final contents of the caller array: the
source sorts a spread copy ([...brokers].sort(...)), which is a stable
descending sort by bval of a fresh array, so the input array is returned
unchanged. -/
def topBrokerFromList (brokers : List BrokerBuyItem) :
    Option BrokerData × List BrokerBuyItem :=
  match brokers with
  | [] => (none, brokers)
  | _ :: _ =>
    match brokers.mergeSort bvalDescLe with
    | [] => (none, brokers)
    | topBroker :: _ =>
      (some { bandar := topBroker.netbs_broker_code
              barangBandar := jsRound topBroker.blot
              rataRataBandar := jsRound topBroker.netbs_buy_avg_price },
       brokers)

/-- getTopBroker from src/unnamed/part_000 (the current lib/stockbit.ts):
returns null instead of throwing when brokers_buy is missing, not an
array, or empty, so that the caller can degrade gracefully. -/
def getTopBroker (marketDetectorData : MarketDetectorResponse) : Option BrokerData :=
  match buyListOf marketDetectorData with
  | none => none
  | some brokers => (topBrokerFromList brokers).1

/-- getTopBroker from src/unnamed/part_005 (the duplicated older variant):
identical selection logic, but throws when brokers_buy is missing, not an
array, or empty. -/
def getTopBrokerStrict (marketDetectorData : MarketDetectorResponse) :
    Except String BrokerData :=
  match buyListOf marketDetectorData with
  | none => .error ("No broker data found in data.broker_summary.brokers_buy")
  | some brokers =>
    match (topBrokerFromList brokers).1 with
    | none => .error ("No broker data found in data.broker_summary.brokers_buy")
    | some bd => .ok bd

/-! ## getBrokerSummary (graceful variant, src/unnamed/part_000 lines 300 to 322) -/

structure BrokerSummaryData where
  detector : BrokerDetector
  topBuyers : List BrokerBuyItem
  topSellers : List BrokerSellItem
  deriving DecidableEq

/-- Default object used for detector?.topN || default. -/
def defaultTopStat : BrokerTopStat :=
  { vol := 0, percent := 0, amount := 0, accdist := "-" }

/-- JS expression n || 0 for a number n (NaN does not occur in this model). -/
def jsOrNum (n : ℚ) (defaultValue : ℚ) : ℚ := if n == 0 then defaultValue else n

/-- JS expression s || d for strings: the empty string is falsy. -/
def jsOrStr (s : String) (defaultValue : String) : String :=
  if s == "" then defaultValue else s

/-- The detector value that getBrokerSummary builds when bandar_detector
is entirely missing. -/
def defaultDetector : BrokerDetector :=
  { top1 := defaultTopStat, top3 := defaultTopStat, top5 := defaultTopStat
    avg := defaultTopStat, total_buyer := 0, total_seller := 0
    number_broker_buysell := 0, broker_accdist := "-"
    volume := 0, value := 0, average := 0 }

/-- getBrokerSummary from src/unnamed/part_000: total on every response,
filling zero and dash defaults for missing fields, and truncating the
buyer and seller lists with slice(0, 4). -/
def getBrokerSummary (marketDetectorData : MarketDetectorResponse) : BrokerSummaryData :=
  let detector := marketDetectorData.data.bind fun d => d.bandar_detector
  let brokerSummary := marketDetectorData.data.bind fun d => d.broker_summary
  { detector :=
      match detector with
      | none => defaultDetector
      | some d =>
        { top1 := d.top1, top3 := d.top3, top5 := d.top5, avg := d.avg
          total_buyer := jsOrNum d.total_buyer 0
          total_seller := jsOrNum d.total_seller 0
          number_broker_buysell := jsOrNum d.number_broker_buysell 0
          broker_accdist := jsOrStr d.broker_accdist ("-")
          volume := jsOrNum d.volume 0
          value := jsOrNum d.value 0
          average := jsOrNum d.average 0 }
    topBuyers := ((brokerSummary.bind fun s => s.brokers_buy).map fun l => l.take 4).getD []
    topSellers := ((brokerSummary.bind fun s => s.brokers_sell).map fun l => l.take 4).getD [] }

/-! ## Persistence layer (src/unnamed/part_004)

The stock_queries table is embedded as a list of rows. A row carries the
upsert payload columns (StockQueryData) together with the columns that no
upsert payload mentions: the row id and the backfilled real_harga and
max_harga. A Supabase upsert with onConflict updates exactly the payload
columns of conflicting rows and inserts a fresh row otherwise. -/

/-- Payload of saveWatchlistAnalysis (src/unnamed/part_004 lines 189 to
211). The payload of saveStockQuery (lines 11 to 31) is the same minus
status and error_message, which simply stay none there. -/
structure StockQueryData where
  from_date : String
  to_date : String
  emiten : String
  sector : Option String := none
  bandar : Option String := none
  barang_bandar : Option ℚ := none
  rata_rata_bandar : Option ℚ := none
  harga : Option ℚ := none
  ara : Option ℚ := none
  arb : Option ℚ := none
  fraksi : Option ℚ := none
  total_bid : Option ℚ := none
  total_offer : Option ℚ := none
  total_papan : Option ℚ := none
  rata_rata_bid_ofer : Option ℚ := none
  a : Option ℚ := none
  p : Option ℚ := none
  target_realistis : Option ℚ := none
  target_max : Option ℚ := none
  status : Option String := none
  error_message : Option String := none
  deriving DecidableEq

/-- Row of the stock_queries table: payload columns plus id and the
backfill columns real_harga / max_harga that only
updatePreviousDayRealPrice writes. -/
structure StockQueryRow where
  id : Nat
  data : StockQueryData
  real_harga : Option ℚ := none
  max_harga : Option ℚ := none
  deriving DecidableEq

/-- Conflict test of the upsert target onConflict: from_date,emiten. -/
def keyMatches (q : StockQueryRow) (d : StockQueryData) : Bool :=
  q.data.from_date == d.from_date && q.data.emiten == d.emiten

/-- Supabase upsert on stock_queries with onConflict from_date,emiten:
update the payload columns of the conflicting row when one exists,
insert a fresh row (with a fresh id, backfill columns null) otherwise. -/
def upsertStockQueries (table : List StockQueryRow) (freshId : Nat)
    (d : StockQueryData) : List StockQueryRow :=
  if table.any fun q => keyMatches q d then
    table.map fun q => if keyMatches q d then { q with data := d } else q
  else
    table ++ [{ id := freshId, data := d }]

/-- saveStockQuery (src/unnamed/part_004 lines 11 to 43): an upsert into
stock_queries with onConflict from_date,emiten. -/
def saveStockQuery (table : List StockQueryRow) (freshId : Nat)
    (d : StockQueryData) : List StockQueryRow :=
  upsertStockQueries table freshId d

/-- saveWatchlistAnalysis (src/unnamed/part_004 lines 189 to 223): the
same upsert into stock_queries with onConflict from_date,emiten. -/
def saveWatchlistAnalysis (table : List StockQueryRow) (freshId : Nat)
    (d : StockQueryData) : List StockQueryRow :=
  upsertStockQueries table freshId d

/-- The unique constraint behind the conflict target: no two rows of
stock_queries share the (from_date, emiten) key. -/
def TableKeyUnique (table : List StockQueryRow) : Prop :=
  table.Pairwise fun q1 q2 =>
    ¬(q1.data.from_date = q2.data.from_date ∧ q1.data.emiten = q2.data.emiten)

/-- Distinctness of the primary key id column. -/
def IdsUnique (table : List StockQueryRow) : Prop :=
  table.Pairwise fun q1 q2 => q1.id ≠ q2.id

/-- Filter of the lookup step of updatePreviousDayRealPrice
(src/unnamed/part_004 lines 354 to 362): same emiten, status success,
from_date strictly before currentDate. Dates are ISO strings, whose
lexicographic order is the date order. -/
def matchesPrev (r : StockQueryRow) (emiten currentDate : String) : Bool :=
  r.data.emiten == emiten && r.data.status == some ("success")
    && decide (r.data.from_date < currentDate)

/-- Lookup of the latest matching record: order by from_date descending,
limit 1, single. Embedded as a fold keeping the row with the greatest
from_date (the first one on ties, as in a stable descending sort). -/
def findPrevRecord (table : List StockQueryRow) (emiten currentDate : String) :
    Option StockQueryRow :=
  match table.filter fun r => matchesPrev r emiten currentDate with
  | [] => none
  | r :: rs =>
    some (rs.foldl (fun acc x =>
      if acc.data.from_date < x.data.from_date then x else acc) r)

/-- The max_harga column of the update object: it is included (and set
to maxPrice) only when a maxPrice argument was given, so the stored
value is otherwise untouched. -/
def maxHargaUpdate (maxPrice : Option ℚ) (old : Option ℚ) : Option ℚ :=
  match maxPrice with
  | some mp => some mp
  | none => old

/-- updatePreviousDayRealPrice (src/unnamed/part_004 lines 352 to 388):
find the latest successful record of the emiten strictly before
currentDate; when none exists return null and leave the table unchanged;
otherwise update that record by id, setting real_harga to price and,
only when maxPrice is given, max_harga to maxPrice. Returns the selected
updated rows together with the new table. -/
def updatePreviousDayRealPrice (table : List StockQueryRow)
    (emiten currentDate : String) (price : ℚ) (maxPrice : Option ℚ) :
    Option (List StockQueryRow) × List StockQueryRow :=
  match findPrevRecord table emiten currentDate with
  | none => (none, table)
  | some record =>
    let newTable := table.map fun r =>
      if r.id == record.id then
        { r with real_harga := some price
                 max_harga := maxHargaUpdate maxPrice r.max_harga }
      else r
    (some (newTable.filter fun r => r.id == record.id), newTable)

/-! ## Session store and token cache (src/unnamed/part_000 and part_004) -/

/-- Row of the session table (the columns this development reads). -/
structure SessionRow where
  key : String
  value : String
  is_valid : Bool := true
  last_used_at : Option Nat := none
  deriving DecidableEq

/-- getSessionValue (src/unnamed/part_004 lines 48 to 57): select value
where key equals the given key, single(); single errors unless exactly
one row matches, and every error becomes null. -/
def getSessionValue (store : List SessionRow) (key : String) : Option String :=
  match store.filter fun r => r.key == key with
  | [r] => some r.value
  | _ => none

/-- invalidateToken (src/unnamed/part_004 lines 158 to 167): set
is_valid to false on the stockbit_token row. -/
def invalidateToken (store : List SessionRow) : List SessionRow :=
  store.map fun r =>
    if r.key == "stockbit_token" then { r with is_valid := false } else r

/-- updateTokenLastUsed (src/unnamed/part_004 lines 144 to 153): set
last_used_at on the stockbit_token row. -/
def updateTokenLastUsed (now : Nat) (store : List SessionRow) : List SessionRow :=
  store.map fun r =>
    if r.key == "stockbit_token" then { r with last_used_at := some now } else r

/-- The in-memory module state of src/unnamed/part_000: cachedToken and
tokenLastFetched. -/
structure TokenCache where
  cachedToken : Option String := none
  tokenLastFetched : Nat := 0
  deriving DecidableEq

/-- TOKEN_CACHE_DURATION (src/unnamed/part_000 line 18). -/
def TOKEN_CACHE_DURATION : Nat := 60000

/-- getAuthToken (src/unnamed/part_000 lines 31 to 56). Inputs: the
clock, the session store, the STOCKBIT_JWT_TOKEN environment variable,
and the module cache. Output: the token or the thrown error message, the
new cache, and whether the session store was consulted. -/
def getAuthToken (now : Nat) (store : List SessionRow)
    (envToken : Option String) (cache : TokenCache) :
    Except String String × TokenCache × Bool :=
  if jsTruthyStr cache.cachedToken
      && decide (now - cache.tokenLastFetched < TOKEN_CACHE_DURATION) then
    (.ok (cache.cachedToken.getD ("")), cache, false)
  else if !jsTruthyStr (getSessionValue store ("stockbit_token")) then
    if !jsTruthyStr envToken then
      (.error ("STOCKBIT_JWT_TOKEN not found in database or environment"),
       cache, true)
    else
      (.ok (envToken.getD ("")), cache, true)
  else
    (.ok ((getSessionValue store ("stockbit_token")).getD ("")),
     { cachedToken := getSessionValue store ("stockbit_token")
       tokenLastFetched := now }, true)

/-- HTTP response as handleApiResponse reads it. -/
structure HttpResponse where
  status : Nat
  statusText : String
  deriving DecidableEq

/-- The fetch Response.ok flag: status in the range 200 to 299. -/
def responseOk (r : HttpResponse) : Bool := 200 ≤ r.status && r.status ≤ 299

/-- Errors thrown by handleApiResponse: the distinguished
TokenExpiredError (src/unnamed/part_000 lines 8 to 13) or a generic
Error. -/
inductive StockbitError where
  | tokenExpired (message : String)
  | generic (message : String)
  deriving DecidableEq

/-- handleApiResponse (src/unnamed/part_000 lines 74 to 88). On 401:
mark the stored token invalid, clear the cached token, throw
TokenExpiredError. On any other non-ok status: throw a generic error
with status code and status text. Otherwise update last_used_at. -/
def handleApiResponse (resp : HttpResponse) (apiName : String) (now : Nat)
    (store : List SessionRow) (cache : TokenCache) :
    Except StockbitError Unit × List SessionRow × TokenCache :=
  if resp.status == 401 then
    (.error (.tokenExpired (apiName ++ ": Token expired or invalid (401)")),
     invalidateToken store, { cache with cachedToken := none })
  else if !responseOk resp then
    (.error (.generic (apiName ++ " error: " ++ toString resp.status
        ++ " " ++ resp.statusText)),
     store, cache)
  else
    (.ok (), updateTokenLastUsed now store, cache)

/-! ## Orderbook data and market data extraction -/

/-- One price level of the orderbook (only the price field is read by the
analysed code paths). -/
structure OrderbookLevel where
  price : ℚ
  deriving DecidableEq

structure TotalLotSide where
  lot : ℚ
  deriving DecidableEq

structure TotalBidOffer where
  bid : TotalLotSide
  offer : TotalLotSide
  deriving DecidableEq

/-- OrderbookData from src/unnamed/part_002. The comma separated lot
strings are embedded by their numeric value: the route parses them with
parseLot and the batch job with Number(lot.replace(/,/g, gone)), which
agree on every lot string the code handles (both send the empty string
to 0). -/
structure OrderbookData where
  close : ℚ
  high : ℚ
  offer : List OrderbookLevel
  bid : List OrderbookLevel
  total_bid_offer : TotalBidOffer
  deriving DecidableEq

/-- Market data block built identically at src/app/api/stock/route.ts
lines 43 to 58, src/app/api/analyze-watchlist/route.ts lines 58 to 68
and src/netlify/functions/analyze-watchlist-background.ts lines 70 to
80: close price, maximum offer price (falling back to the daily high),
minimum bid price (falling back to 0), and the two total lot numbers. -/
structure MarketData where
  harga : ℚ
  offerTeratas : ℚ
  bidTerbawah : ℚ
  totalBid : ℚ
  totalOffer : ℚ
  deriving DecidableEq

def buildMarketData (ob : OrderbookData) : MarketData :=
  let offerPrices := ob.offer.map fun o => o.price
  let bidPrices := ob.bid.map fun b => b.price
  { harga := ob.close
    offerTeratas := match offerPrices with
      | [] => jsOrNum ob.high 0
      | p :: ps => ps.foldl max p
    bidTerbawah := match bidPrices with
      | [] => 0
      | p :: ps => ps.foldl min p
    totalBid := ob.total_bid_offer.bid.lot
    totalOffer := ob.total_bid_offer.offer.lot }

/-! ## Target price calculation -/

/-- Output record of calculateTargets (CalculatedData plus fraksi in
src/unnamed/part_002). -/
structure CalculatedData where
  fraksi : ℚ
  totalPapan : ℚ
  rataRataBidOfer : ℚ
  a : ℚ
  p : ℚ
  targetRealistis1 : ℚ
  targetMax : ℚ
  deriving DecidableEq

/-- Modelled from the spec: the file src/lib/calculations.ts that defines
calculateTargets is missing from the sources (only its three call sites
are present). Spec section 4.1 describes it as fixed arithmetic formulas
producing a price increment unit (fraksi), a total float proxy
(totalPapan), an average bid/offer, and two target prices as ratios and
percentage offsets, with no iteration and no failure modes beyond
division-by-zero guards; the UI labels name a as five percent of the
leading broker average and p as the broker volume divided by the average
bid/offer. The IDX tick-size table gives the price increment unit. -/
def fraksiOf (harga : ℚ) : ℚ :=
  if harga < 200 then 1
  else if harga < 500 then 2
  else if harga < 2000 then 5
  else if harga < 5000 then 10
  else 25

/-- Modelled from the spec: calculateTargets itself (src/lib/calculations.ts,
missing from the sources), as a pure function of the seven numeric inputs
named at its call sites, with an explicit division-by-zero guard on the
one ratio whose denominator can vanish. The exact coefficients of the two
percentage offsets are not recoverable from the spec; the claims settled
against this model do not depend on them. -/
def calculateTargets (rataRataBandar barangBandar offerTeratas bidTerbawah
    totalBid totalOffer harga : ℚ) : CalculatedData :=
  let fraksi := fraksiOf harga
  let totalPapan := totalBid + totalOffer
  let rataRataBidOfer := totalPapan / 2
  let a := rataRataBandar * 5 / 100
  let p := if rataRataBidOfer == 0 then 0 else barangBandar / rataRataBidOfer
  let offsetBase := jsOrNum rataRataBandar (jsOrNum offerTeratas bidTerbawah)
  { fraksi := fraksi
    totalPapan := totalPapan
    rataRataBidOfer := rataRataBidOfer
    a := a
    p := p
    targetRealistis1 := offsetBase + a
    targetMax := offsetBase + 2 * a }

/-! ## Background job logs (src/unnamed/part_004 lines 479 to 627) -/

/-- One entry of the log_entries JSONB array. -/
structure LogEntry where
  level : String
  message : String
  emiten : Option String := none
  isTokenError : Option Bool := none
  deriving DecidableEq

/-- Row of the background_job_logs table (the columns this development
reads and writes; metadata is embedded by its isTokenError field). -/
structure JobLogRow where
  id : Nat
  job_name : String
  status : String
  total_items : Nat
  success_count : Option Nat := none
  error_count : Option Nat := none
  error_message : Option String := none
  metaIsTokenError : Option Bool := none
  log_entries : List LogEntry := []
  completed_at : Option Nat := none
  deriving DecidableEq

/-- createBackgroundJobLog: insert a running row with empty entries. -/
def createBackgroundJobLog (logs : List JobLogRow) (freshId : Nat)
    (jobName : String) (totalItems : Nat) : List JobLogRow × JobLogRow :=
  let row : JobLogRow :=
    { id := freshId, job_name := jobName, status := "running"
      total_items := totalItems }
  (logs ++ [row], row)

/-- appendBackgroundJobLogEntry: append one entry to the log_entries
array of the given job row. -/
def appendBackgroundJobLogEntry (logs : List JobLogRow) (jobId : Nat)
    (entry : LogEntry) : List JobLogRow :=
  logs.map fun l =>
    if l.id == jobId then { l with log_entries := l.log_entries ++ [entry] }
    else l

/-- updateBackgroundJobLog: set the final status and counters of the
given job row and stamp completed_at. -/
def updateBackgroundJobLog (logs : List JobLogRow) (jobId : Nat)
    (status : String) (successCount errorCount : Option Nat)
    (errorMessage : Option String) (metaTokenFlag : Option Bool)
    (now : Nat) : List JobLogRow :=
  logs.map fun l =>
    if l.id == jobId then
      { l with status := status, success_count := successCount
               error_count := errorCount, error_message := errorMessage
               metaIsTokenError := metaTokenFlag, completed_at := some now }
    else l

/-! ## The background watchlist batch job
(src/netlify/functions/analyze-watchlist-background.ts) -/

/-- Substring test: JS String.prototype.includes. -/
def containsSubstr (s sub : String) : Bool := decide (sub.toList <:+: s.toList)

/-- The token-problem heuristic of the background job (lines 151 to 154
and 199 to 202): the error message contains 401, unauthorized, token or
authentication. -/
def tokenErrorHeuristic (msg : String) : Bool :=
  containsSubstr msg ("401") || containsSubstr msg ("unauthorized")
    || containsSubstr msg ("token") || containsSubstr msg ("authentication")

/-- Outcome of the awaited Promise.all of the three per-symbol fetches
(market detector, orderbook, emiten info); the emiten info fetch already
carries .catch(() => null), so only its success value is an Option. An
orderbook payload from which the required fields cannot be read manifests
as a rejection here, exactly as the thrown TypeError would. -/
inductive FetchOutcome where
  | ok (md : MarketDetectorResponse) (ob : OrderbookData) (sector : Option String)
  | error (msg : String)
  deriving DecidableEq

/-- Oracle describing what the external world returns for one watchlist
symbol: the fetch bundle, whether saveWatchlistAnalysis rejects (with
which message), and what fetchHistoricalSummary returns for the backfill
step. -/
structure SymbolEnv where
  symbol : String
  fetch : FetchOutcome
  saveError : Option String := none
  historical : Except String (List (ℚ × ℚ)) := .ok []

/-- Mutable state threaded through the batch loop: the stock_queries
table with an id supply, the results and errors accumulators, and the
background_job_logs table. -/
structure BatchState where
  table : List StockQueryRow
  nextId : Nat
  results : List String
  errors : List (String × String)
  logs : List JobLogRow
  deriving DecidableEq

/-- The analysis payload that the batch loop upserts for one symbol
(lines 92 to 113). -/
def analysisData (today symbol : String) (sector : Option String)
    (bd : BrokerData) (m : MarketData) (c : CalculatedData) : StockQueryData :=
  { from_date := today, to_date := today, emiten := symbol, sector := sector
    bandar := some bd.bandar
    barang_bandar := some (bd.barangBandar : ℚ)
    rata_rata_bandar := some (bd.rataRataBandar : ℚ)
    harga := some m.harga, ara := some m.offerTeratas
    arb := some m.bidTerbawah, fraksi := some c.fraksi
    total_bid := some m.totalBid, total_offer := some m.totalOffer
    total_papan := some c.totalPapan
    rata_rata_bid_ofer := some c.rataRataBidOfer
    a := some c.a, p := some c.p
    target_realistis := some c.targetRealistis1
    target_max := some c.targetMax
    status := some ("success") }

/-- Append a job log entry when a job log row was created (jobLogId is
null when createBackgroundJobLog failed, and the job then continues
without logging). -/
def appendLogIfPresent (jobLogId : Option Nat) (st : BatchState)
    (entry : LogEntry) : BatchState :=
  match jobLogId with
  | none => st
  | some jid => { st with logs := appendBackgroundJobLogEntry st.logs jid entry }

/-- The per-symbol catch block (lines 143 to 166): push the error onto
the errors list and append an error entry to the job log, rewriting the
message when it matches the token heuristic. -/
def recordSymbolError (jobLogId : Option Nat) (st : BatchState)
    (symbol msg : String) : BatchState :=
  let st := { st with errors := st.errors ++ [(symbol, msg)] }
  appendLogIfPresent jobLogId st
    { level := "error"
      message := if tokenErrorHeuristic msg then ("Token authentication failed") else msg
      emiten := some symbol
      isTokenError := some (tokenErrorHeuristic msg) }

/-- One iteration of the batch loop (lines 43 to 167), driven by the
oracle for this symbol. -/
def processSymbol (jobLogId : Option Nat) (today : String)
    (st : BatchState) (env : SymbolEnv) : BatchState :=
  match env.fetch with
  | .error msg => recordSymbolError jobLogId st env.symbol msg
  | .ok md ob sector =>
    match getTopBroker md with
    | none =>
      let st := { st with errors := st.errors ++ [(env.symbol, "No broker data available")] }
      appendLogIfPresent jobLogId st
        { level := "warn", message := "No broker data available"
          emiten := some env.symbol }
    | some brokerData =>
      let m := buildMarketData ob
      let c := calculateTargets (brokerData.rataRataBandar : ℚ)
        (brokerData.barangBandar : ℚ) m.offerTeratas m.bidTerbawah
        (m.totalBid / 100) (m.totalOffer / 100) m.harga
      match env.saveError with
      | some msg => recordSymbolError jobLogId st env.symbol msg
      | none =>
        let st := { st with
          table := saveWatchlistAnalysis st.table st.nextId
            (analysisData today env.symbol sector brokerData m c)
          nextId := st.nextId + 1 }
        let st :=
          match env.historical with
          | .error _ => st
          | .ok [] => st
          | .ok ((close, high) :: _) =>
            { st with table :=
                (updatePreviousDayRealPrice st.table env.symbol today
                  close (some high)).2 }
        let st := { st with results := st.results ++ [env.symbol] }
        appendLogIfPresent jobLogId st
          { level := "info", message := "Successfully analyzed"
            emiten := some env.symbol }

/-- The batch loop over the watchlist items (line 43): a plain sequential
fold, one symbol at a time. -/
def runBatch (jobLogId : Option Nat) (today : String)
    (envs : List SymbolEnv) (st : BatchState) : BatchState :=
  envs.foldl (processSymbol jobLogId today) st

/-- The message the top-level catch stores for token problems. -/
def tokenFailureMessage : String :=
  "Stockbit token expired or invalid. Please refresh your token."

/-- Response value of the handler in the critical-error path. -/
structure HandlerResponse where
  success : Bool
  error : Option String := none
  isTokenError : Option Bool := none
  status : Nat
  deriving DecidableEq

/-- The top-level catch of the background job (lines 194 to 245): decide
the token heuristic on the message, append a final error entry and mark
the job log failed when one exists, otherwise create a fresh log and mark
it failed, and answer 500. -/
def handleCriticalError (logs : List JobLogRow) (jobLogId : Option Nat)
    (freshId : Nat) (errorMessage : String) (now : Nat) :
    List JobLogRow × HandlerResponse :=
  let isTokenError := tokenErrorHeuristic errorMessage
  let storedMessage := if isTokenError then tokenFailureMessage else errorMessage
  let resp : HandlerResponse :=
    { success := false, error := some errorMessage
      isTokenError := some isTokenError, status := 500 }
  match jobLogId with
  | some jid =>
    let logs := appendBackgroundJobLogEntry logs jid
      { level := "error", message := storedMessage
        isTokenError := some isTokenError }
    let logs := updateBackgroundJobLog logs jid ("failed") none none
      (some storedMessage) (some isTokenError) now
    (logs, resp)
  | none =>
    let created := createBackgroundJobLog logs freshId ("analyze-watchlist") 0
    let logs := updateBackgroundJobLog created.1 freshId ("failed") none none
      (some storedMessage) (some isTokenError) now
    (logs, resp)

/-! ## The single-stock analysis route (src/app/api/stock/route.ts)

The route calls getTopBroker without a null check and dereferences the
result, so a missing broker dataset is a hard failure of the request:
with the throwing variant the throw itself, with the null-returning
variant the TypeError raised by the dereference on null; either lands in
the outer catch and becomes a 500 response. The embedding uses the
throwing variant, as the claim sources pair this call site with it. -/

structure StockRouteResult where
  stockbitData : BrokerData
  marketData : MarketData
  calculated : CalculatedData
  brokerSummary : BrokerSummaryData
  deriving DecidableEq

/-- POST body of src/app/api/stock/route.ts lines 20 to 95, given the two
fetch results. -/
def stockRoutePost (md : MarketDetectorResponse) (ob : OrderbookData) :
    Except String StockRouteResult := do
  let brokerData ← getTopBrokerStrict md
  let brokerSummary := getBrokerSummary md
  let m := buildMarketData ob
  let calculated := calculateTargets (brokerData.rataRataBandar : ℚ)
    (brokerData.barangBandar : ℚ) m.offerTeratas m.bidTerbawah
    (m.totalBid / 100) (m.totalOffer / 100) m.harga
  .ok { stockbitData := brokerData, marketData := m
        calculated := calculated, brokerSummary := brokerSummary }

/-! ## Theorems -/

lemma optionTake4_length_le {α : Type} (x : Option (List α)) :
    ((x.map fun l => l.take 4).getD []).length ≤ 4 := by
  cases x with
  | none => simp
  | some l =>
    show (l.take 4).length ≤ 4
    rw [List.length_take]
    exact Nat.min_le_left 4 l.length

/-- C10: the graceful variant of getBrokerSummary is total: for any
market-detector response, including one whose data, broker_summary, or
bandar_detector fields are entirely missing, it returns a
BrokerSummaryData populated with zero and dash defaults rather than
throwing, and its topBuyers and topSellers lists each contain at most 4
elements. -/
theorem getBrokerSummary_total_graceful :
    ∀ r : MarketDetectorResponse,
      (getBrokerSummary r).topBuyers.length ≤ 4 ∧
      (getBrokerSummary r).topSellers.length ≤ 4 ∧
      ((r.data.bind fun d => d.bandar_detector) = none →
        (getBrokerSummary r).detector = defaultDetector) ∧
      (r.data = none →
        getBrokerSummary r =
          { detector := defaultDetector, topBuyers := [], topSellers := [] }) := by
  intro r
  refine ⟨?_, ?_, ?_, ?_⟩
  · exact optionTake4_length_le _
  · exact optionTake4_length_le _
  · intro h
    simp only [getBrokerSummary, h]
  · intro h
    simp only [getBrokerSummary, h, Option.bind_none, Option.map_none]
    rfl

/-- Witness for C10 at the fully missing response. -/
theorem getBrokerSummary_total_graceful_witness :
    (getBrokerSummary { data := none }).topBuyers.length ≤ 4 ∧
    getBrokerSummary { data := none } =
      { detector := defaultDetector, topBuyers := [], topSellers := [] } := by
  have h := getBrokerSummary_total_graceful { data := none }
  exact ⟨h.1, h.2.2.2 rfl⟩

/-- C8: calculateTargets is deterministic: two invocations on the same
seven inputs (leading-broker average price, broker lot volume, best ask,
best bid, total bid lots, total offer lots, last traded price) return the
same derived outputs (fraksi, totalPapan, rataRataBidOfer, a, p,
targetRealistis1, targetMax). -/
theorem calculateTargets_deterministic :
    ∀ (r1 b1 o1 d1 tb1 tf1 h1 r2 b2 o2 d2 tb2 tf2 h2 : ℚ),
      r1 = r2 → b1 = b2 → o1 = o2 → d1 = d2 → tb1 = tb2 → tf1 = tf2 → h1 = h2 →
      calculateTargets r1 b1 o1 d1 tb1 tf1 h1 =
        calculateTargets r2 b2 o2 d2 tb2 tf2 h2 := by
  intro r1 b1 o1 d1 tb1 tf1 h1 r2 b2 o2 d2 tb2 tf2 h2 hr hb ho hd htb htf hh
  subst hr hb ho hd htb htf hh
  rfl

/-- Witness for C8 at a concrete input vector. -/
theorem calculateTargets_deterministic_witness :
    calculateTargets 250 1000 260 240 50 70 255 =
      calculateTargets 250 1000 260 240 50 70 255 :=
  calculateTargets_deterministic 250 1000 260 240 50 70 255 250 1000 260 240 50 70 255
    rfl rfl rfl rfl rfl rfl rfl

lemma getAuthToken_consults_of_cachedToken_none
    (now : Nat) (store : List SessionRow) (envToken : Option String)
    (cache : TokenCache) (h : cache.cachedToken = none) :
    (getAuthToken now store envToken cache).2.2 = true := by
  rw [getAuthToken, h]
  simp only [jsTruthyStr, Bool.false_and, Bool.false_eq_true, if_false]
  split_ifs <;> rfl

/-- C3: on a 401 Stockbit response, handleApiResponse marks the stored
token invalid in the session store, clears the in-memory cached token,
and throws the distinguished TokenExpiredError, so that a subsequent
getAuthToken call cannot answer from the cache and must consult the
store; every other non-2xx response throws a generic Error carrying the
status code and status text, leaving store and cache untouched. -/
theorem handleApiResponse_401_and_generic :
    ∀ (resp : HttpResponse) (apiName : String) (now : Nat)
      (store : List SessionRow) (cache : TokenCache),
      (resp.status = 401 →
        (handleApiResponse resp apiName now store cache).1 =
          .error (.tokenExpired (apiName ++ ": Token expired or invalid (401)")) ∧
        (∀ row ∈ (handleApiResponse resp apiName now store cache).2.1,
          row.key = "stockbit_token" → row.is_valid = false) ∧
        (handleApiResponse resp apiName now store cache).2.2.cachedToken = none ∧
        (∀ (now2 : Nat) (store2 : List SessionRow) (envToken2 : Option String),
          (getAuthToken now2 store2 envToken2
            (handleApiResponse resp apiName now store cache).2.2).2.2 = true)) ∧
      (resp.status ≠ 401 → responseOk resp = false →
        handleApiResponse resp apiName now store cache =
          (.error (.generic (apiName ++ " error: " ++ toString resp.status
              ++ " " ++ resp.statusText)), store, cache)) := by
  intro resp apiName now store cache
  constructor
  · intro h401
    have hb : (resp.status == 401) = true := by simpa using h401
    refine ⟨?_, ?_, ?_, ?_⟩
    · rw [handleApiResponse, if_pos hb]
    · intro row hrow hkey
      rw [handleApiResponse, if_pos hb] at hrow
      simp only [invalidateToken, List.mem_map] at hrow
      obtain ⟨orig, _, rfl⟩ := hrow
      by_cases hk : orig.key = "stockbit_token"
      · simp [hk]
      · rw [if_neg (by simpa using hk)] at hkey ⊢
        exact absurd hkey hk
    · rw [handleApiResponse, if_pos hb]
    · intro now2 store2 envToken2
      apply getAuthToken_consults_of_cachedToken_none
      rw [handleApiResponse, if_pos hb]
  · intro hne hok
    have hb : (resp.status == 401) = false := by simpa using hne
    rw [handleApiResponse, if_neg (by simp [hb]), hok]
    rfl

/-- Witness for C3: a 401 response on a one-row store, and a 500
response. -/
theorem handleApiResponse_401_and_generic_witness :
    (handleApiResponse { status := 401, statusText := "Unauthorized" }
        ("Orderbook API") 7
        [{ key := "stockbit_token", value := "tok" }]
        { cachedToken := some ("tok"), tokenLastFetched := 3 }).1 =
      .error (.tokenExpired ("Orderbook API: Token expired or invalid (401)")) ∧
    (handleApiResponse { status := 401, statusText := "Unauthorized" }
        ("Orderbook API") 7
        [{ key := "stockbit_token", value := "tok" }]
        { cachedToken := some ("tok"), tokenLastFetched := 3 }).2.2.cachedToken = none ∧
    handleApiResponse { status := 500, statusText := "Server Error" }
        ("Orderbook API") 7
        [{ key := "stockbit_token", value := "tok" }]
        { cachedToken := some ("tok"), tokenLastFetched := 3 } =
      (.error (.generic ("Orderbook API error: 500 Server Error")),
       [{ key := "stockbit_token", value := "tok" }],
       { cachedToken := some ("tok"), tokenLastFetched := 3 }) := by
  have h1 := handleApiResponse_401_and_generic
    { status := 401, statusText := "Unauthorized" } ("Orderbook API") 7
    [{ key := "stockbit_token", value := "tok" }]
    { cachedToken := some ("tok"), tokenLastFetched := 3 }
  have h2 := handleApiResponse_401_and_generic
    { status := 500, statusText := "Server Error" } ("Orderbook API") 7
    [{ key := "stockbit_token", value := "tok" }]
    { cachedToken := some ("tok"), tokenLastFetched := 3 }
  exact ⟨(h1.1 rfl).1, (h1.1 rfl).2.2.1, h2.2 (by decide) (by decide)⟩

/-- C6: getAuthToken answers from the in-memory cache, without
consulting the session store, exactly when a (truthy) token was cached
less than TOKEN_CACHE_DURATION = 60000 milliseconds ago; otherwise it
consults the store, falls back to the STOCKBIT_JWT_TOKEN environment
variable when the store yields nothing (without caching that fallback),
throws when neither source provides a token, and caches the store token
when the store yields one. -/
theorem getAuthToken_cache_policy :
    ∀ (now : Nat) (store : List SessionRow) (envToken : Option String)
      (cache : TokenCache),
      ((getAuthToken now store envToken cache).2.2 = false ↔
        jsTruthyStr cache.cachedToken = true ∧
          now - cache.tokenLastFetched < TOKEN_CACHE_DURATION) ∧
      ((getAuthToken now store envToken cache).2.2 = false →
        (getAuthToken now store envToken cache).1 =
          .ok (cache.cachedToken.getD ("")) ∧
        (getAuthToken now store envToken cache).2.1 = cache) ∧
      (¬(jsTruthyStr cache.cachedToken = true ∧
          now - cache.tokenLastFetched < TOKEN_CACHE_DURATION) →
        jsTruthyStr (getSessionValue store ("stockbit_token")) = false →
        (jsTruthyStr envToken = true →
          (getAuthToken now store envToken cache).1 = .ok (envToken.getD ("")) ∧
          (getAuthToken now store envToken cache).2.1 = cache) ∧
        (jsTruthyStr envToken = false →
          (getAuthToken now store envToken cache).1 =
            .error ("STOCKBIT_JWT_TOKEN not found in database or environment"))) ∧
      (¬(jsTruthyStr cache.cachedToken = true ∧
          now - cache.tokenLastFetched < TOKEN_CACHE_DURATION) →
        jsTruthyStr (getSessionValue store ("stockbit_token")) = true →
        (getAuthToken now store envToken cache).1 =
          .ok ((getSessionValue store ("stockbit_token")).getD ("")) ∧
        (getAuthToken now store envToken cache).2.1 =
          { cachedToken := getSessionValue store ("stockbit_token")
            tokenLastFetched := now }) := by
  intro now store envToken cache
  by_cases hc : jsTruthyStr cache.cachedToken = true ∧
      now - cache.tokenLastFetched < TOKEN_CACHE_DURATION
  · have hcond : (jsTruthyStr cache.cachedToken
        && decide (now - cache.tokenLastFetched < TOKEN_CACHE_DURATION)) = true := by
      simp [hc.1, hc.2]
    refine ⟨?_, ?_, ?_, ?_⟩
    · rw [getAuthToken, if_pos hcond]
      simpa using hc
    · intro _
      rw [getAuthToken, if_pos hcond]
      exact ⟨rfl, rfl⟩
    · intro hn; exact absurd hc hn
    · intro hn; exact absurd hc hn
  · have hcond : (jsTruthyStr cache.cachedToken
        && decide (now - cache.tokenLastFetched < TOKEN_CACHE_DURATION)) = false := by
      by_cases h1 : jsTruthyStr cache.cachedToken = true
      · have h2 : ¬(now - cache.tokenLastFetched < TOKEN_CACHE_DURATION) :=
          fun hlt => hc ⟨h1, hlt⟩
        simp [h1, h2]
      · simp [Bool.eq_false_iff.mpr h1]
    have hconsults : (getAuthToken now store envToken cache).2.2 = true := by
      rw [getAuthToken, if_neg (by simp [hcond])]
      split_ifs <;> rfl
    refine ⟨?_, ?_, ?_, ?_⟩
    · constructor
      · intro hfalse
        rw [hconsults] at hfalse
        exact absurd hfalse (by simp)
      · intro h; exact absurd h hc
    · intro hfalse
      rw [hconsults] at hfalse
      exact absurd hfalse (by simp)
    · intro _ hstore
      have hstore' : (!jsTruthyStr (getSessionValue store ("stockbit_token"))) = true := by
        simp [hstore]
      constructor
      · intro henv
        rw [getAuthToken, if_neg (by simp [hcond]), if_pos hstore',
          if_neg (by simp [henv])]
        exact ⟨rfl, rfl⟩
      · intro henv
        rw [getAuthToken, if_neg (by simp [hcond]), if_pos hstore',
          if_pos (by simp [henv])]
    · intro _ hstore
      rw [getAuthToken, if_neg (by simp [hcond]), if_neg (by simp [hstore])]
      exact ⟨rfl, rfl⟩

/-- Witness for C6: a fresh cache miss that falls back to the
environment variable, and a cache hit 10 milliseconds after caching. -/
theorem getAuthToken_cache_policy_witness :
    ((getAuthToken 10 [] (some ("envtok")) {}).1 = .ok ("envtok") ∧
      (getAuthToken 10 [] (some ("envtok")) {}).2.1 = {}) ∧
    (getAuthToken 10 [] (some ("envtok"))
      { cachedToken := some ("tok"), tokenLastFetched := 5 }).2.2 = false := by
  constructor
  · exact ((getAuthToken_cache_policy 10 [] (some ("envtok")) {}).2.2.1
      (by simp [jsTruthyStr]) (by simp [getSessionValue, jsTruthyStr])).1
      (by simp [jsTruthyStr])
  · exact ((getAuthToken_cache_policy 10 [] (some ("envtok"))
      { cachedToken := some ("tok"), tokenLastFetched := 5 }).1).mpr
      ⟨by simp [jsTruthyStr], by simp [TOKEN_CACHE_DURATION]⟩

lemma appendEntry_mem (logs : List JobLogRow) (jid : Nat) (entry : LogEntry)
    (l0 : JobLogRow) (h : l0 ∈ logs) (hid : l0.id = jid) :
    ({ l0 with log_entries := l0.log_entries ++ [entry] })
      ∈ appendBackgroundJobLogEntry logs jid entry := by
  have hmem := List.mem_map_of_mem
    (f := fun l : JobLogRow =>
      if l.id == jid then { l with log_entries := l.log_entries ++ [entry] } else l) h
  simpa [appendBackgroundJobLogEntry, hid] using hmem

lemma updateJobLog_mem (logs : List JobLogRow) (jid : Nat) (status : String)
    (sc ec : Option Nat) (em : Option String) (mt : Option Bool) (now : Nat)
    (l0 : JobLogRow) (h : l0 ∈ logs) (hid : l0.id = jid) :
    ({ l0 with status := status, success_count := sc, error_count := ec,
               error_message := em, metaIsTokenError := mt,
               completed_at := some now })
      ∈ updateBackgroundJobLog logs jid status sc ec em mt now := by
  have hmem := List.mem_map_of_mem
    (f := fun l : JobLogRow =>
      if l.id == jid then
        { l with status := status, success_count := sc, error_count := ec
                 error_message := em, metaIsTokenError := mt
                 completed_at := some now }
      else l) h
  simpa [updateBackgroundJobLog, hid] using hmem

/-- C7: when the top-level catch of the background batch job fires, the
job-run log row is marked with status failed, and the root cause is
recorded as token-related exactly when the error message contains one of
the substrings 401, unauthorized, token, authentication. -/
theorem topLevelCatch_marks_failed :
    ∀ (logs : List JobLogRow) (jobLogId : Option Nat) (freshId : Nat)
      (msg : String) (now : Nat),
      (∀ jid, jobLogId = some jid → jid ∈ logs.map (fun l => l.id) →
        ∃ l ∈ (handleCriticalError logs jobLogId freshId msg now).1,
          l.id = jid ∧ l.status = "failed" ∧
          l.metaIsTokenError = some (tokenErrorHeuristic msg) ∧
          l.error_message =
            some (if tokenErrorHeuristic msg then tokenFailureMessage else msg)) ∧
      (jobLogId = none →
        ∃ l ∈ (handleCriticalError logs jobLogId freshId msg now).1,
          l.id = freshId ∧ l.status = "failed" ∧
          l.metaIsTokenError = some (tokenErrorHeuristic msg)) ∧
      (handleCriticalError logs jobLogId freshId msg now).2.isTokenError =
        some (tokenErrorHeuristic msg) ∧
      (tokenErrorHeuristic msg = true ↔
        (("401").toList <:+: msg.toList ∨ ("unauthorized").toList <:+: msg.toList ∨
         ("token").toList <:+: msg.toList ∨
         ("authentication").toList <:+: msg.toList)) := by
  intro logs jobLogId freshId msg now
  refine ⟨?_, ?_, ?_, ?_⟩
  · intro jid hjid hmem
    subst hjid
    obtain ⟨l0, hl0, hid⟩ := List.mem_map.mp hmem
    have h1 := appendEntry_mem logs jid
      { level := "error"
        message := if tokenErrorHeuristic msg then tokenFailureMessage else msg
        isTokenError := some (tokenErrorHeuristic msg) } l0 hl0 hid
    have h2 := updateJobLog_mem _ jid ("failed") none none
      (some (if tokenErrorHeuristic msg then tokenFailureMessage else msg))
      (some (tokenErrorHeuristic msg)) now _ h1 hid
    exact ⟨_, h2, hid, rfl, rfl, rfl⟩
  · intro hjid
    subst hjid
    have hrow : ({ id := freshId, job_name := "analyze-watchlist",
                   status := "running", total_items := 0 } : JobLogRow)
        ∈ (createBackgroundJobLog logs freshId ("analyze-watchlist") 0).1 := by
      simp [createBackgroundJobLog]
    have h2 := updateJobLog_mem _ freshId ("failed") none none
      (some (if tokenErrorHeuristic msg then tokenFailureMessage else msg))
      (some (tokenErrorHeuristic msg)) now _ hrow rfl
    exact ⟨_, h2, rfl, rfl, rfl⟩
  · cases jobLogId <;> rfl
  · simp [tokenErrorHeuristic, containsSubstr, Bool.or_eq_true,
      decide_eq_true_eq, or_assoc]

/-- Witness for C7: a running job log with id 7 and a message containing
401. -/
theorem topLevelCatch_marks_failed_witness :
    (∃ l ∈ (handleCriticalError
        [{ id := 7, job_name := "analyze-watchlist", status := "running"
           total_items := 3 }] (some 7) 9 ("boom 401") 11).1,
      l.id = 7 ∧ l.status = "failed" ∧
      l.metaIsTokenError = some (tokenErrorHeuristic ("boom 401")) ∧
      l.error_message =
        some (if tokenErrorHeuristic ("boom 401") then tokenFailureMessage
          else ("boom 401"))) ∧
    tokenErrorHeuristic ("boom 401") = true := by
  have h := topLevelCatch_marks_failed
    [{ id := 7, job_name := "analyze-watchlist", status := "running"
       total_items := 3 }] (some 7) 9 ("boom 401") 11
  exact ⟨h.1 7 rfl (by simp), h.2.2.2.mpr (Or.inl (by decide))⟩

lemma keyMatches_iff (q : StockQueryRow) (d : StockQueryData) :
    keyMatches q d = true ↔
      q.data.from_date = d.from_date ∧ q.data.emiten = d.emiten := by
  simp [keyMatches]

lemma keyMatches_false_of_ne (q : StockQueryRow) (d : StockQueryData)
    (h : ¬(q.data.from_date = d.from_date ∧ q.data.emiten = d.emiten)) :
    keyMatches q d = false := by
  cases hkm : keyMatches q d with
  | false => rfl
  | true => exact absurd ((keyMatches_iff q d).mp hkm) h

lemma filter_replace_nil (qs : List StockQueryRow) (d : StockQueryData)
    (h : ∀ q ∈ qs, keyMatches q d = false) :
    ((qs.map fun q => if keyMatches q d then { q with data := d } else q).filter
      (fun q => keyMatches q d)) = [] := by
  induction qs with
  | nil => rfl
  | cons q qs ih =>
    have hq := h q (by simp)
    rw [List.map_cons, if_neg (by simp [hq]),
      List.filter_cons_of_neg (by simp [hq])]
    exact ih fun x hx => h x (by simp [hx])

lemma filter_map_replace (d : StockQueryData) :
    ∀ table : List StockQueryRow,
      TableKeyUnique table →
      table.any (fun q => keyMatches q d) = true →
      (((table.map fun q => if keyMatches q d then { q with data := d } else q).filter
        (fun q => keyMatches q d)).map fun q => q.data) = [d] := by
  intro table
  induction table with
  | nil => intro _ h; simp at h
  | cons q qs ih =>
    intro hu hany
    rw [TableKeyUnique, List.pairwise_cons] at hu
    by_cases hq1 : keyMatches q d = true
    · have hqd := (keyMatches_iff q d).mp hq1
      have htail : ∀ x ∈ qs, keyMatches x d = false := by
        intro x hx
        refine keyMatches_false_of_ne x d fun hxd => ?_
        exact hu.1 x hx ⟨hqd.1.trans hxd.1.symm, hqd.2.trans hxd.2.symm⟩
      rw [List.map_cons, if_pos (by simp [hq1]),
        List.filter_cons_of_pos (by simp [keyMatches]),
        filter_replace_nil qs d htail]
      rfl
    · have hq1' : keyMatches q d = false := by
        cases h : keyMatches q d with
        | false => rfl
        | true => exact absurd h hq1
      have hany' : qs.any (fun q => keyMatches q d) = true := by
        simpa [List.any_cons, hq1'] using hany
      rw [List.map_cons, if_neg (by simp [hq1']),
        List.filter_cons_of_neg (by simp [hq1'])]
      exact ih hu.2 hany'

lemma upsert_filter_key (table : List StockQueryRow) (i : Nat) (d : StockQueryData)
    (hu : TableKeyUnique table) :
    (((upsertStockQueries table i d).filter fun q => keyMatches q d).map
      fun q => q.data) = [d] := by
  by_cases hany : table.any (fun q => keyMatches q d) = true
  · rw [upsertStockQueries, if_pos hany]
    exact filter_map_replace d table hu hany
  · have hnone : ∀ q ∈ table, keyMatches q d = false := by
      intro q hq
      cases h : keyMatches q d with
      | false => rfl
      | true => exact absurd (List.any_of_mem hq h) hany
    rw [upsertStockQueries, if_neg hany, List.filter_append,
      List.filter_eq_nil_iff.mpr (by intro a ha; simp [hnone a ha]),
      List.nil_append, List.filter_cons_of_pos (by simp [keyMatches])]
    rfl

lemma replace_preserves_key (q : StockQueryRow) (d : StockQueryData) :
    (if keyMatches q d then { q with data := d } else q).data.from_date
        = q.data.from_date ∧
      (if keyMatches q d then { q with data := d } else q).data.emiten
        = q.data.emiten := by
  by_cases h : keyMatches q d = true
  · have hqd := (keyMatches_iff q d).mp h
    rw [if_pos (by simp [h])]
    exact ⟨hqd.1.symm, hqd.2.symm⟩
  · rw [if_neg (by simpa using h)]
    exact ⟨rfl, rfl⟩

lemma keyUnique_upsert (table : List StockQueryRow) (i : Nat) (d : StockQueryData)
    (hu : TableKeyUnique table) :
    TableKeyUnique (upsertStockQueries table i d) := by
  by_cases hany : table.any (fun q => keyMatches q d) = true
  · rw [upsertStockQueries, if_pos hany]
    refine List.Pairwise.map _ ?_ hu
    intro a b hab hfab
    have ha := replace_preserves_key a d
    have hb := replace_preserves_key b d
    exact hab ⟨ha.1.symm.trans (hfab.1.trans hb.1),
      ha.2.symm.trans (hfab.2.trans hb.2)⟩
  · rw [upsertStockQueries, if_neg hany]
    rw [TableKeyUnique, List.pairwise_append]
    refine ⟨hu, by simp, ?_⟩
    intro a ha b hb hkey
    have hb' : b = ({ id := i, data := d } : StockQueryRow) := by simpa using hb
    subst hb'
    have : keyMatches a d = true := (keyMatches_iff a d).mpr hkey
    exact absurd (List.any_of_mem ha this) hany

/-- C2: upserting twice with the same (from_date, emiten) key via
saveStockQuery or saveWatchlistAnalysis overwrites rather than
duplicates: on a table satisfying the unique constraint, after the
second upsert exactly one record exists for that key, and it holds the
second payload. -/
theorem upsert_same_key_overwrites :
    ∀ (table : List StockQueryRow) (i1 i2 : Nat) (d1 d2 : StockQueryData),
      TableKeyUnique table →
      d1.from_date = d2.from_date → d1.emiten = d2.emiten →
      (((saveWatchlistAnalysis (saveWatchlistAnalysis table i1 d1) i2 d2).filter
          fun q => keyMatches q d2).map fun q => q.data) = [d2] ∧
      (((saveStockQuery (saveStockQuery table i1 d1) i2 d2).filter
          fun q => keyMatches q d2).map fun q => q.data) = [d2] := by
  intro table i1 i2 d1 d2 hu _ _
  have hu1 : TableKeyUnique (upsertStockQueries table i1 d1) :=
    keyUnique_upsert table i1 d1 hu
  have h := upsert_filter_key (upsertStockQueries table i1 d1) i2 d2 hu1
  exact ⟨h, h⟩

/-- Witness for C2: two upserts of BBCA on 2025-10-10 into the empty
table, the second with a different price. -/
theorem upsert_same_key_overwrites_witness :
    (((saveWatchlistAnalysis
        (saveWatchlistAnalysis [] 1
          { from_date := "2025-10-10", to_date := "2025-10-10"
            emiten := "BBCA", harga := some 100 }) 2
        { from_date := "2025-10-10", to_date := "2025-10-10"
          emiten := "BBCA", harga := some 200 }).filter
        fun q => keyMatches q
          { from_date := "2025-10-10", to_date := "2025-10-10"
            emiten := "BBCA", harga := some 200 }).map fun q => q.data) =
      [{ from_date := "2025-10-10", to_date := "2025-10-10"
         emiten := "BBCA", harga := some 200 }] := by
  exact (upsert_same_key_overwrites [] 1 2
    { from_date := "2025-10-10", to_date := "2025-10-10"
      emiten := "BBCA", harga := some 100 }
    { from_date := "2025-10-10", to_date := "2025-10-10"
      emiten := "BBCA", harga := some 200 }
    List.Pairwise.nil rfl rfl).1

lemma bvalDescLe_trans : ∀ a b c : BrokerBuyItem,
    bvalDescLe a b = true → bvalDescLe b c = true → bvalDescLe a c = true := by
  intro a b c hab hbc
  simp only [bvalDescLe, decide_eq_true_eq] at *
  exact hbc.trans hab

lemma bvalDescLe_total : ∀ a b : BrokerBuyItem,
    (bvalDescLe a b || bvalDescLe b a) = true := by
  intro a b
  simp only [bvalDescLe, Bool.or_eq_true, decide_eq_true_eq]
  exact le_total b.bval a.bval

lemma topBrokerFromList_snd (brokers : List BrokerBuyItem) :
    (topBrokerFromList brokers).2 = brokers := by
  cases brokers with
  | nil => rfl
  | cons b bs =>
    cases h : (b :: bs).mergeSort bvalDescLe with
    | nil => simp [topBrokerFromList, h]
    | cons top rest => simp [topBrokerFromList, h]

lemma topBrokerFromList_fst (b : BrokerBuyItem) (bs : List BrokerBuyItem)
    (top : BrokerBuyItem) (rest : List BrokerBuyItem)
    (hms : (b :: bs).mergeSort bvalDescLe = top :: rest) :
    (topBrokerFromList (b :: bs)).1 = some
      { bandar := top.netbs_broker_code
        barangBandar := jsRound top.blot
        rataRataBandar := jsRound top.netbs_buy_avg_price } := by
  simp [topBrokerFromList, hms]

/-- C9: on a response whose brokers_buy list is non-empty, getTopBroker
returns the broker code, rounded lot volume and rounded average buy
price of an element whose bval is maximal in the list, and the caller
array is left unchanged (the source sorts a spread copy). -/
theorem getTopBroker_selects_max :
    ∀ (r : MarketDetectorResponse) (brokers : List BrokerBuyItem),
      buyListOf r = some brokers → brokers ≠ [] →
      ∃ top ∈ brokers,
        (∀ x ∈ brokers, x.bval ≤ top.bval) ∧
        getTopBroker r = some
          { bandar := top.netbs_broker_code
            barangBandar := jsRound top.blot
            rataRataBandar := jsRound top.netbs_buy_avg_price } ∧
        (topBrokerFromList brokers).2 = brokers := by
  intro r brokers hb hne
  cases brokers with
  | nil => exact absurd rfl hne
  | cons b bs =>
    have hperm : ((b :: bs).mergeSort bvalDescLe).Perm (b :: bs) :=
      List.mergeSort_perm (b :: bs) bvalDescLe
    have hsorted := List.sorted_mergeSort bvalDescLe_trans bvalDescLe_total (b :: bs)
    cases hms : (b :: bs).mergeSort bvalDescLe with
    | nil =>
      rw [hms] at hperm
      exact absurd (List.perm_nil.mp hperm.symm) (by simp)
    | cons top rest =>
      rw [hms] at hperm hsorted
      have htopmem : top ∈ b :: bs := hperm.subset (List.mem_cons_self top rest)
      have hmax : ∀ x ∈ b :: bs, x.bval ≤ top.bval := by
        intro x hx
        have hx' : x ∈ top :: rest := hperm.mem_iff.mpr hx
        rcases List.mem_cons.mp hx' with rfl | hxr
        · exact le_refl _
        · have hle := (List.pairwise_cons.mp hsorted).1 x hxr
          simpa [bvalDescLe] using hle
      refine ⟨top, htopmem, hmax, ?_, ?_⟩
      · rw [getTopBroker, hb]
        show (topBrokerFromList (b :: bs)).1 = _
        exact topBrokerFromList_fst b bs top rest hms
      · exact topBrokerFromList_snd (b :: bs)

/-- Demo buyer rows for the concrete witness of the top-broker claim. -/
def demoBuyerAA : BrokerBuyItem :=
  { netbs_broker_code := "AA", bval := 10, blot := 201 / 2
    netbs_buy_avg_price := 199 / 2, type := "buy" }

def demoBuyerBB : BrokerBuyItem :=
  { netbs_broker_code := "BB", bval := 20, blot := 50
    netbs_buy_avg_price := 10, type := "buy" }

def demoBuyResponse : MarketDetectorResponse :=
  { data := some
      { broker_summary := some
          { brokers_buy := some [demoBuyerAA, demoBuyerBB]
            brokers_sell := none }
        bandar_detector := none } }

/-- Witness for C9 with a concrete two-element broker list. -/
theorem getTopBroker_selects_max_witness :
    ∃ top ∈ [demoBuyerAA, demoBuyerBB],
      (∀ x ∈ [demoBuyerAA, demoBuyerBB], x.bval ≤ top.bval) ∧
      getTopBroker demoBuyResponse = some
        { bandar := top.netbs_broker_code
          barangBandar := jsRound top.blot
          rataRataBandar := jsRound top.netbs_buy_avg_price } ∧
      (topBrokerFromList [demoBuyerAA, demoBuyerBB]).2 =
        [demoBuyerAA, demoBuyerBB] := by
  exact getTopBroker_selects_max demoBuyResponse [demoBuyerAA, demoBuyerBB]
    rfl (by simp)

/-- C5: when the market-detector response has a missing, non-array, or
empty brokers_buy dataset, the graceful getTopBroker yields null and the
batch job skips the symbol and continues with the remaining watchlist,
while the duplicated strict variant throws, which in the single-stock
analysis route (whose call site has no null check) is a hard failure of
the request: the two duplicated implementations behave inconsistently on
the same input. -/
theorem getTopBroker_variants_inconsistent :
    ∀ r : MarketDetectorResponse,
      (buyListOf r = none ∨ buyListOf r = some []) →
      getTopBroker r = none ∧
      getTopBrokerStrict r =
        .error ("No broker data found in data.broker_summary.brokers_buy") ∧
      (∀ ob : OrderbookData, stockRoutePost r ob =
        .error ("No broker data found in data.broker_summary.brokers_buy")) ∧
      (∀ (jid : Nat) (today symbol : String) (ob : OrderbookData)
         (sector : Option String) (rest : List SymbolEnv) (st : BatchState),
        runBatch (some jid) today
            ({ symbol := symbol, fetch := .ok r ob sector } :: rest) st =
          runBatch (some jid) today rest
            (appendLogIfPresent (some jid)
              { st with errors :=
                  st.errors ++ [(symbol, "No broker data available")] }
              { level := "warn", message := "No broker data available"
                emiten := some symbol })) := by
  intro r hbad
  have h1 : getTopBroker r = none := by
    rcases hbad with h | h <;> rw [getTopBroker, h]
    rfl
  have h2 : getTopBrokerStrict r =
      .error ("No broker data found in data.broker_summary.brokers_buy") := by
    rcases hbad with h | h <;> rw [getTopBrokerStrict, h]
    rfl
  refine ⟨h1, h2, ?_, ?_⟩
  · intro ob
    rw [stockRoutePost, h2]
    rfl
  · intro jid today symbol ob sector rest st
    rw [runBatch, List.foldl_cons]
    have hstep : processSymbol (some jid) today st
        { symbol := symbol, fetch := .ok r ob sector } =
        appendLogIfPresent (some jid)
          { st with errors := st.errors ++ [(symbol, "No broker data available")] }
          { level := "warn", message := "No broker data available"
            emiten := some symbol } := by
      simp only [processSymbol, h1]
    rw [hstep]
    rfl

/-- Demo orderbook and batch state for the concrete witnesses. -/
def demoOrderbook : OrderbookData :=
  { close := 100, high := 110, offer := [], bid := []
    total_bid_offer := { bid := { lot := 0 }, offer := { lot := 0 } } }

def demoBatchState : BatchState :=
  { table := [], nextId := 0, results := [], errors := [], logs := [] }

/-- Witness for C5 at the response with no data at all. -/
theorem getTopBroker_variants_inconsistent_witness :
    getTopBroker { data := none } = none ∧
    getTopBrokerStrict { data := none } =
      .error ("No broker data found in data.broker_summary.brokers_buy") ∧
    stockRoutePost { data := none } demoOrderbook =
      .error ("No broker data found in data.broker_summary.brokers_buy") ∧
    runBatch (some 1) ("2025-10-10")
        [{ symbol := "BBCA", fetch := .ok { data := none } demoOrderbook none }]
        demoBatchState =
      runBatch (some 1) ("2025-10-10") []
        (appendLogIfPresent (some 1)
          { demoBatchState with errors :=
              demoBatchState.errors ++ [("BBCA", "No broker data available")] }
          { level := "warn", message := "No broker data available"
            emiten := some ("BBCA") }) := by
  have h := getTopBroker_variants_inconsistent { data := none } (Or.inl rfl)
  exact ⟨h.1, h.2.1, h.2.2.1 demoOrderbook,
    h.2.2.2 1 ("2025-10-10") ("BBCA") demoOrderbook none [] demoBatchState⟩

lemma foldl_latest_mem (r : StockQueryRow) (rs : List StockQueryRow) :
    rs.foldl (fun acc x =>
      if acc.data.from_date < x.data.from_date then x else acc) r ∈ r :: rs := by
  induction rs generalizing r with
  | nil => simp
  | cons x rs ih =>
    rw [List.foldl_cons]
    have h := ih (if r.data.from_date < x.data.from_date then x else r)
    rcases List.mem_cons.mp h with heq | hmem
    · rw [heq]
      by_cases hc : r.data.from_date < x.data.from_date
      · rw [if_pos hc]
        exact List.mem_cons_of_mem r (List.mem_cons_self x rs)
      · rw [if_neg hc]
        exact List.mem_cons_self r _
    · exact List.mem_cons_of_mem r (List.mem_cons_of_mem x hmem)

lemma foldl_latest_ge (rs : List StockQueryRow) :
    ∀ r : StockQueryRow, ∀ y ∈ r :: rs, y.data.from_date ≤
      (rs.foldl (fun acc x =>
        if acc.data.from_date < x.data.from_date then x else acc) r).data.from_date := by
  induction rs with
  | nil =>
    intro r y hy
    rcases List.mem_cons.mp hy with rfl | hy'
    · exact le_refl _
    · exact absurd hy' (List.not_mem_nil y)
  | cons x rs ih =>
    intro r y hy
    have hr : r.data.from_date ≤
        (if r.data.from_date < x.data.from_date then x else r).data.from_date := by
      by_cases hc : r.data.from_date < x.data.from_date
      · rw [if_pos hc]; exact le_of_lt hc
      · rw [if_neg hc]
    have hx : x.data.from_date ≤
        (if r.data.from_date < x.data.from_date then x else r).data.from_date := by
      by_cases hc : r.data.from_date < x.data.from_date
      · rw [if_pos hc]
      · rw [if_neg hc]; exact le_of_not_lt hc
    have hpick := ih (if r.data.from_date < x.data.from_date then x else r)
      (if r.data.from_date < x.data.from_date then x else r)
      (List.mem_cons_self _ _)
    rw [List.foldl_cons]
    rcases List.mem_cons.mp hy with rfl | hy'
    · exact hr.trans hpick
    · rcases List.mem_cons.mp hy' with rfl | hy''
      · exact hx.trans hpick
      · exact ih _ y (List.mem_cons_of_mem _ hy'')

lemma findPrevRecord_eq_none (table : List StockQueryRow)
    (emiten currentDate : String)
    (h : ∀ r ∈ table, matchesPrev r emiten currentDate = false) :
    findPrevRecord table emiten currentDate = none := by
  rw [findPrevRecord, List.filter_eq_nil_iff.mpr (by intro a ha; simp [h a ha])]

lemma findPrevRecord_spec (table : List StockQueryRow)
    (emiten currentDate : String) (record : StockQueryRow)
    (h : findPrevRecord table emiten currentDate = some record) :
    record ∈ table ∧ matchesPrev record emiten currentDate = true ∧
      ∀ r ∈ table, matchesPrev r emiten currentDate = true →
        r.data.from_date ≤ record.data.from_date := by
  rw [findPrevRecord] at h
  cases hf : table.filter (fun r => matchesPrev r emiten currentDate) with
  | nil => rw [hf] at h; cases h
  | cons r rs =>
    rw [hf] at h
    have hrec : record = rs.foldl (fun acc x =>
        if acc.data.from_date < x.data.from_date then x else acc) r := by
      injection h with h'
      exact h'.symm
    have hmem : record ∈ r :: rs := hrec ▸ foldl_latest_mem r rs
    have hmem' : record ∈ table.filter (fun r => matchesPrev r emiten currentDate) := by
      rw [hf]; exact hmem
    refine ⟨(List.mem_filter.mp hmem').1, (List.mem_filter.mp hmem').2, ?_⟩
    intro q hq hqm
    have hq' : q ∈ r :: rs := by
      rw [← hf]
      exact List.mem_filter.mpr ⟨hq, hqm⟩
    rw [hrec]
    exact foldl_latest_ge rs r q hq'

lemma ids_unique_inj (table : List StockQueryRow) (h : IdsUnique table) :
    ∀ a ∈ table, ∀ b ∈ table, a.id = b.id → a = b := by
  induction table with
  | nil => simp
  | cons q qs ih =>
    rw [IdsUnique, List.pairwise_cons] at h
    intro a ha b hb hab
    rcases List.mem_cons.mp ha with rfl | ha' <;>
      rcases List.mem_cons.mp hb with rfl | hb'
    · rfl
    · exact absurd hab (h.1 b hb')
    · exact absurd hab.symm (h.1 a ha')
    · exact ih h.2 a ha' b hb' hab

/-- C4: updatePreviousDayRealPrice updates exactly the single most
recent success record of the emiten strictly before currentDate, setting
only its real_harga (and max_harga when maxPrice is given) while leaving
its other columns and all other rows unchanged; when no such prior
record exists it returns null and modifies nothing. -/
theorem updatePreviousDayRealPrice_frame :
    ∀ (table : List StockQueryRow) (emiten currentDate : String)
      (price : ℚ) (maxPrice : Option ℚ),
      IdsUnique table →
      ((∀ r ∈ table, matchesPrev r emiten currentDate = false) →
        updatePreviousDayRealPrice table emiten currentDate price maxPrice =
          (none, table)) ∧
      (∀ record, findPrevRecord table emiten currentDate = some record →
        record ∈ table ∧
        matchesPrev record emiten currentDate = true ∧
        (∀ r ∈ table, matchesPrev r emiten currentDate = true →
          r.data.from_date ≤ record.data.from_date) ∧
        (∀ r ∈ table, r.id = record.id → r = record) ∧
        (updatePreviousDayRealPrice table emiten currentDate
            price maxPrice).2.length = table.length ∧
        (∀ i (hi : i < table.length)
            (hi2 : i < (updatePreviousDayRealPrice table emiten currentDate
              price maxPrice).2.length),
          ((table.get ⟨i, hi⟩).id ≠ record.id →
            (updatePreviousDayRealPrice table emiten currentDate
              price maxPrice).2.get ⟨i, hi2⟩ = table.get ⟨i, hi⟩) ∧
          ((table.get ⟨i, hi⟩).id = record.id →
            ((updatePreviousDayRealPrice table emiten currentDate
                price maxPrice).2.get ⟨i, hi2⟩).data = (table.get ⟨i, hi⟩).data ∧
            ((updatePreviousDayRealPrice table emiten currentDate
                price maxPrice).2.get ⟨i, hi2⟩).id = (table.get ⟨i, hi⟩).id ∧
            ((updatePreviousDayRealPrice table emiten currentDate
                price maxPrice).2.get ⟨i, hi2⟩).real_harga = some price ∧
            ((updatePreviousDayRealPrice table emiten currentDate
                price maxPrice).2.get ⟨i, hi2⟩).max_harga =
              maxHargaUpdate maxPrice (table.get ⟨i, hi⟩).max_harga))) := by
  intro table emiten currentDate price maxPrice hids
  constructor
  · intro hnone
    rw [updatePreviousDayRealPrice, findPrevRecord_eq_none table emiten currentDate hnone]
  · intro record hrec
    obtain ⟨hmem, hmatch, hmax⟩ := findPrevRecord_spec table emiten currentDate record hrec
    refine ⟨hmem, hmatch, hmax, ?_, ?_, ?_⟩
    · intro r hr hid
      exact ids_unique_inj table hids r hr record hmem hid
    · have hout : (updatePreviousDayRealPrice table emiten currentDate
          price maxPrice).2 = table.map (fun r =>
            if r.id == record.id then
              { r with real_harga := some price
                       max_harga := maxHargaUpdate maxPrice r.max_harga }
            else r) := by
        rw [updatePreviousDayRealPrice, hrec]
      rw [hout]
      exact List.length_map table _
    · intro i hi hi2
      have hout : (updatePreviousDayRealPrice table emiten currentDate
          price maxPrice).2 = table.map (fun r =>
            if r.id == record.id then
              { r with real_harga := some price
                       max_harga := maxHargaUpdate maxPrice r.max_harga }
            else r) := by
        rw [updatePreviousDayRealPrice, hrec]
      constructor
      · intro hne
        simp only [List.get_eq_getElem, hout, List.getElem_map]
        rw [if_neg (by simp only [List.get_eq_getElem] at hne; simpa using hne)]
      · intro heq
        simp only [List.get_eq_getElem, hout, List.getElem_map]
        rw [if_pos (by simp only [List.get_eq_getElem] at heq; simpa using heq)]
        exact ⟨rfl, rfl, rfl, rfl⟩

/-- Witness for C4: the empty table has no prior record, so the call
returns null and modifies nothing. -/
theorem updatePreviousDayRealPrice_frame_witness :
    updatePreviousDayRealPrice [] ("BBCA") ("2025-10-10") 100 none =
      (none, []) := by
  exact (updatePreviousDayRealPrice_frame [] ("BBCA") ("2025-10-10") 100 none
    List.Pairwise.nil).1 (by simp)

/-! ## Lemmas for the batch loop (C1) -/

/-- A job log row with the given id holds the given entry. -/
def LogHasEntry (logs : List JobLogRow) (jid : Nat) (entry : LogEntry) : Prop :=
  ∃ l ∈ logs, l.id = jid ∧ entry ∈ l.log_entries

/-- The stock_queries table holds a row with the given payload. -/
def HasDataRow (table : List StockQueryRow) (d : StockQueryData) : Prop :=
  ∃ row ∈ table, row.data = d

lemma appendLogIfPresent_errors (jidOpt : Option Nat) (st : BatchState)
    (entry : LogEntry) : (appendLogIfPresent jidOpt st entry).errors = st.errors := by
  cases jidOpt <;> rfl

lemma appendLogIfPresent_table (jidOpt : Option Nat) (st : BatchState)
    (entry : LogEntry) : (appendLogIfPresent jidOpt st entry).table = st.table := by
  cases jidOpt <;> rfl

lemma recordSymbolError_errors (jidOpt : Option Nat) (st : BatchState)
    (symbol msg : String) :
    (recordSymbolError jidOpt st symbol msg).errors = st.errors ++ [(symbol, msg)] := by
  rw [recordSymbolError, appendLogIfPresent_errors]

lemma recordSymbolError_table (jidOpt : Option Nat) (st : BatchState)
    (symbol msg : String) :
    (recordSymbolError jidOpt st symbol msg).table = st.table := by
  rw [recordSymbolError, appendLogIfPresent_table]

lemma appendEntry_ids (logs : List JobLogRow) (j : Nat) (e : LogEntry) :
    (appendBackgroundJobLogEntry logs j e).map (fun l => l.id) =
      logs.map (fun l => l.id) := by
  rw [appendBackgroundJobLogEntry, List.map_map]
  refine List.map_congr_left ?_
  intro l _
  show (if l.id == j then { l with log_entries := l.log_entries ++ [e] } else l).id = l.id
  split <;> rfl

lemma logHasEntry_append (logs : List JobLogRow) (j : Nat) (e : LogEntry)
    (jid : Nat) (entry : LogEntry) (h : LogHasEntry logs jid entry) :
    LogHasEntry (appendBackgroundJobLogEntry logs j e) jid entry := by
  obtain ⟨l, hl, hid, he⟩ := h
  refine ⟨if l.id == j then { l with log_entries := l.log_entries ++ [e] } else l,
    List.mem_map_of_mem _ hl, ?_, ?_⟩
  · split <;> exact hid
  · split
    · exact List.mem_append_left _ he
    · exact he

lemma logHasEntry_append_self (logs : List JobLogRow) (j : Nat) (entry : LogEntry)
    (h : j ∈ logs.map (fun l => l.id)) :
    LogHasEntry (appendBackgroundJobLogEntry logs j entry) j entry := by
  obtain ⟨l, hl, hid⟩ := List.mem_map.mp h
  refine ⟨{ l with log_entries := l.log_entries ++ [entry] }, ?_, hid, by simp⟩
  have hmem := List.mem_map_of_mem
    (f := fun l : JobLogRow =>
      if l.id == j then { l with log_entries := l.log_entries ++ [entry] } else l) hl
  simpa [appendBackgroundJobLogEntry, hid] using hmem

lemma appendLogIfPresent_logHasEntry (jidOpt : Option Nat) (st : BatchState)
    (e : LogEntry) (jid : Nat) (entry : LogEntry)
    (h : LogHasEntry st.logs jid entry) :
    LogHasEntry (appendLogIfPresent jidOpt st e).logs jid entry := by
  cases jidOpt with
  | none => exact h
  | some j => exact logHasEntry_append st.logs j e jid entry h

lemma appendLogIfPresent_ids (jidOpt : Option Nat) (st : BatchState) (e : LogEntry) :
    (appendLogIfPresent jidOpt st e).logs.map (fun l => l.id) =
      st.logs.map (fun l => l.id) := by
  cases jidOpt with
  | none => rfl
  | some j => exact appendEntry_ids st.logs j e

lemma processSymbol_logHasEntry (jid0 : Option Nat) (today : String)
    (st : BatchState) (env : SymbolEnv) (jid : Nat) (entry : LogEntry)
    (h : LogHasEntry st.logs jid entry) :
    LogHasEntry (processSymbol jid0 today st env).logs jid entry := by
  cases hf : env.fetch with
  | error msg =>
    simp only [processSymbol, hf, recordSymbolError]
    exact appendLogIfPresent_logHasEntry _ _ _ _ _ h
  | ok md ob sector =>
    cases hb : getTopBroker md with
    | none =>
      simp only [processSymbol, hf, hb]
      exact appendLogIfPresent_logHasEntry _ _ _ _ _ h
    | some bd =>
      cases hs : env.saveError with
      | some msg =>
        simp only [processSymbol, hf, hb, hs, recordSymbolError]
        exact appendLogIfPresent_logHasEntry _ _ _ _ _ h
      | none =>
        cases hh : env.historical with
        | error e =>
          simp only [processSymbol, hf, hb, hs, hh]
          exact appendLogIfPresent_logHasEntry _ _ _ _ _ h
        | ok items =>
          cases items with
          | nil =>
            simp only [processSymbol, hf, hb, hs, hh]
            exact appendLogIfPresent_logHasEntry _ _ _ _ _ h
          | cons pair tail =>
            simp only [processSymbol, hf, hb, hs, hh]
            exact appendLogIfPresent_logHasEntry _ _ _ _ _ h

lemma processSymbol_ids (jid0 : Option Nat) (today : String)
    (st : BatchState) (env : SymbolEnv) :
    (processSymbol jid0 today st env).logs.map (fun l => l.id) =
      st.logs.map (fun l => l.id) := by
  cases hf : env.fetch with
  | error msg =>
    simp only [processSymbol, hf, recordSymbolError]
    rw [appendLogIfPresent_ids]
  | ok md ob sector =>
    cases hb : getTopBroker md with
    | none =>
      simp only [processSymbol, hf, hb]
      rw [appendLogIfPresent_ids]
    | some bd =>
      cases hs : env.saveError with
      | some msg =>
        simp only [processSymbol, hf, hb, hs, recordSymbolError]
        rw [appendLogIfPresent_ids]
      | none =>
        cases hh : env.historical with
        | error e =>
          simp only [processSymbol, hf, hb, hs, hh]
          rw [appendLogIfPresent_ids]
        | ok items =>
          cases items with
          | nil =>
            simp only [processSymbol, hf, hb, hs, hh]
            rw [appendLogIfPresent_ids]
          | cons pair tail =>
            simp only [processSymbol, hf, hb, hs, hh]
            rw [appendLogIfPresent_ids]

lemma runBatch_logHasEntry (jid0 : Option Nat) (today : String)
    (envs : List SymbolEnv) (jid : Nat) (entry : LogEntry) :
    ∀ st : BatchState, LogHasEntry st.logs jid entry →
      LogHasEntry (runBatch jid0 today envs st).logs jid entry := by
  induction envs with
  | nil => intro st h; exact h
  | cons e envs ih =>
    intro st h
    rw [runBatch, List.foldl_cons]
    exact ih _ (processSymbol_logHasEntry jid0 today st e jid entry h)

lemma runBatch_ids (jid0 : Option Nat) (today : String) (envs : List SymbolEnv) :
    ∀ st : BatchState, (runBatch jid0 today envs st).logs.map (fun l => l.id) =
      st.logs.map (fun l => l.id) := by
  induction envs with
  | nil => intro st; rfl
  | cons e envs ih =>
    intro st
    rw [runBatch, List.foldl_cons]
    rw [show List.foldl (processSymbol jid0 today) (processSymbol jid0 today st e) envs
      = runBatch jid0 today envs (processSymbol jid0 today st e) from rfl]
    rw [ih, processSymbol_ids]

lemma processSymbol_errors_mono (jid0 : Option Nat) (today : String)
    (st : BatchState) (env : SymbolEnv) (x : String × String)
    (hx : x ∈ st.errors) : x ∈ (processSymbol jid0 today st env).errors := by
  cases hf : env.fetch with
  | error msg =>
    simp only [processSymbol, hf]
    rw [recordSymbolError_errors]
    exact List.mem_append_left _ hx
  | ok md ob sector =>
    cases hb : getTopBroker md with
    | none =>
      simp only [processSymbol, hf, hb]
      rw [appendLogIfPresent_errors]
      exact List.mem_append_left _ hx
    | some bd =>
      cases hs : env.saveError with
      | some msg =>
        simp only [processSymbol, hf, hb, hs]
        rw [recordSymbolError_errors]
        exact List.mem_append_left _ hx
      | none =>
        cases hh : env.historical with
        | error e =>
          simp only [processSymbol, hf, hb, hs, hh]
          rw [appendLogIfPresent_errors]
          exact hx
        | ok items =>
          cases items with
          | nil =>
            simp only [processSymbol, hf, hb, hs, hh]
            rw [appendLogIfPresent_errors]
            exact hx
          | cons pair tail =>
            cases pair with
            | mk close high =>
              simp only [processSymbol, hf, hb, hs, hh]
              rw [appendLogIfPresent_errors]
              exact hx

lemma runBatch_errors_mono (jid0 : Option Nat) (today : String)
    (envs : List SymbolEnv) (x : String × String) :
    ∀ st : BatchState, x ∈ st.errors → x ∈ (runBatch jid0 today envs st).errors := by
  induction envs with
  | nil => intro st h; exact h
  | cons e envs ih =>
    intro st h
    rw [runBatch, List.foldl_cons]
    exact ih _ (processSymbol_errors_mono jid0 today st e x h)

lemma hasDataRow_upsert_self (table : List StockQueryRow) (i : Nat)
    (d : StockQueryData) : HasDataRow (upsertStockQueries table i d) d := by
  by_cases hany : table.any (fun q => keyMatches q d) = true
  · rw [upsertStockQueries, if_pos hany]
    obtain ⟨q, hq, hqm⟩ := List.any_eq_true.mp hany
    refine ⟨{ q with data := d }, ?_, rfl⟩
    have hmem := List.mem_map_of_mem
      (f := fun q => if keyMatches q d then { q with data := d } else q) hq
    simpa [hqm] using hmem
  · rw [upsertStockQueries, if_neg hany]
    exact ⟨{ id := i, data := d }, by simp, rfl⟩

lemma hasDataRow_upsert_other (table : List StockQueryRow) (i : Nat)
    (dNew d : StockQueryData) (hk : d.emiten ≠ dNew.emiten)
    (h : HasDataRow table d) : HasDataRow (upsertStockQueries table i dNew) d := by
  obtain ⟨row, hrow, hdata⟩ := h
  have hkm : keyMatches row dNew = false :=
    keyMatches_false_of_ne row dNew (by rw [hdata]; exact fun hc => hk hc.2)
  by_cases hany : table.any (fun q => keyMatches q dNew) = true
  · rw [upsertStockQueries, if_pos hany]
    refine ⟨row, ?_, hdata⟩
    have hmem := List.mem_map_of_mem
      (f := fun q => if keyMatches q dNew then { q with data := dNew } else q) hrow
    simpa [hkm] using hmem
  · rw [upsertStockQueries, if_neg hany]
    exact ⟨row, List.mem_append_left _ hrow, hdata⟩

lemma hasDataRow_backfill (table : List StockQueryRow) (e cd : String)
    (price : ℚ) (mp : Option ℚ) (d : StockQueryData) (h : HasDataRow table d) :
    HasDataRow (updatePreviousDayRealPrice table e cd price mp).2 d := by
  obtain ⟨row, hrow, hdata⟩ := h
  rw [updatePreviousDayRealPrice]
  cases hrec : findPrevRecord table e cd with
  | none => exact ⟨row, hrow, hdata⟩
  | some record =>
    exact ⟨_, List.mem_map_of_mem
      (f := fun r => if r.id == record.id then
        { r with real_harga := some price
                 max_harga := maxHargaUpdate mp r.max_harga }
        else r) hrow, by split <;> exact hdata⟩

lemma processSymbol_hasDataRow (jid0 : Option Nat) (today : String)
    (st : BatchState) (env : SymbolEnv) (d : StockQueryData)
    (hk : d.emiten ≠ env.symbol) (h : HasDataRow st.table d) :
    HasDataRow (processSymbol jid0 today st env).table d := by
  cases hf : env.fetch with
  | error msg =>
    simp only [processSymbol, hf]
    rw [recordSymbolError_table]
    exact h
  | ok md ob sector =>
    cases hb : getTopBroker md with
    | none =>
      simp only [processSymbol, hf, hb]
      rw [appendLogIfPresent_table]
      exact h
    | some bd =>
      cases hs : env.saveError with
      | some msg =>
        simp only [processSymbol, hf, hb, hs]
        rw [recordSymbolError_table]
        exact h
      | none =>
        cases hh : env.historical with
        | error e =>
          simp only [processSymbol, hf, hb, hs, hh]
          rw [appendLogIfPresent_table]
          exact hasDataRow_upsert_other st.table st.nextId _ d hk h
        | ok items =>
          cases items with
          | nil =>
            simp only [processSymbol, hf, hb, hs, hh]
            rw [appendLogIfPresent_table]
            exact hasDataRow_upsert_other st.table st.nextId _ d hk h
          | cons pair tail =>
            cases pair with
            | mk close high =>
              simp only [processSymbol, hf, hb, hs, hh]
              rw [appendLogIfPresent_table]
              exact hasDataRow_backfill _ _ _ _ _ _
                (hasDataRow_upsert_other st.table st.nextId _ d hk h)

lemma runBatch_hasDataRow (jid0 : Option Nat) (today : String)
    (envs : List SymbolEnv) (d : StockQueryData)
    (hall : ∀ e ∈ envs, d.emiten ≠ e.symbol) :
    ∀ st : BatchState, HasDataRow st.table d →
      HasDataRow (runBatch jid0 today envs st).table d := by
  induction envs with
  | nil => intro st h; exact h
  | cons e envs ih =>
    intro st h
    rw [runBatch, List.foldl_cons]
    exact ih (fun e2 he2 => hall e2 (List.mem_cons_of_mem e he2)) _
      (processSymbol_hasDataRow jid0 today st e d (hall e (List.mem_cons_self e envs)) h)

lemma appendLogIfPresent_some (j : Nat) (st : BatchState) (entry : LogEntry) :
    appendLogIfPresent (some j) st entry =
      { st with logs := appendBackgroundJobLogEntry st.logs j entry } := rfl

lemma processSymbol_error_errors (jid0 : Option Nat) (today : String)
    (st : BatchState) (env : SymbolEnv) (msg : String)
    (hf : env.fetch = .error msg) :
    (processSymbol jid0 today st env).errors = st.errors ++ [(env.symbol, msg)] := by
  simp only [processSymbol, hf]
  rw [recordSymbolError_errors]

lemma processSymbol_error_log (j : Nat) (today : String)
    (st : BatchState) (env : SymbolEnv) (msg : String)
    (hf : env.fetch = .error msg) (hmem : j ∈ st.logs.map (fun l => l.id)) :
    LogHasEntry (processSymbol (some j) today st env).logs j
      { level := "error"
        message := if tokenErrorHeuristic msg then ("Token authentication failed") else msg
        emiten := some env.symbol
        isTokenError := some (tokenErrorHeuristic msg) } := by
  simp only [processSymbol, hf, recordSymbolError, appendLogIfPresent_some]
  exact logHasEntry_append_self st.logs j _ hmem

lemma processSymbol_success_hasDataRow (jid0 : Option Nat) (today : String)
    (st : BatchState) (env : SymbolEnv) (md : MarketDetectorResponse)
    (ob : OrderbookData) (sector : Option String) (bd : BrokerData)
    (hf : env.fetch = .ok md ob sector) (hb : getTopBroker md = some bd)
    (hs : env.saveError = none) :
    HasDataRow (processSymbol jid0 today st env).table
      (analysisData today env.symbol sector bd (buildMarketData ob)
        (calculateTargets (bd.rataRataBandar : ℚ) (bd.barangBandar : ℚ)
          (buildMarketData ob).offerTeratas (buildMarketData ob).bidTerbawah
          ((buildMarketData ob).totalBid / 100)
          ((buildMarketData ob).totalOffer / 100)
          (buildMarketData ob).harga)) := by
  cases hh : env.historical with
  | error e =>
    simp only [processSymbol, hf, hb, hs, hh]
    rw [appendLogIfPresent_table]
    exact hasDataRow_upsert_self _ _ _
  | ok items =>
    cases items with
    | nil =>
      simp only [processSymbol, hf, hb, hs, hh]
      rw [appendLogIfPresent_table]
      exact hasDataRow_upsert_self _ _ _
    | cons pair tail =>
      cases pair with
      | mk close high =>
        simp only [processSymbol, hf, hb, hs, hh]
        rw [appendLogIfPresent_table]
        exact hasDataRow_backfill _ _ _ _ _ _ (hasDataRow_upsert_self _ _ _)

lemma runBatch_append (jid0 : Option Nat) (today : String)
    (l1 l2 : List SymbolEnv) (st : BatchState) :
    runBatch jid0 today (l1 ++ l2) st =
      runBatch jid0 today l2 (runBatch jid0 today l1 st) := by
  simp [runBatch, List.foldl_append]

lemma runBatch_cons (jid0 : Option Nat) (today : String)
    (e : SymbolEnv) (l : List SymbolEnv) (st : BatchState) :
    runBatch jid0 today (e :: l) st =
      runBatch jid0 today l (processSymbol jid0 today st e) := rfl

/-- C1: in the background batch loop, an error thrown while processing
one symbol is caught, appended to the error list and (when a job log
exists) to the job log, and does not abort the batch: every remaining
symbol whose own processing succeeds still has its analysis upserted
into stock_queries in the final state. -/
theorem batch_error_isolation :
    ∀ (jid : Nat) (today : String) (pre : List SymbolEnv) (env : SymbolEnv)
      (rest : List SymbolEnv) (st : BatchState) (msg : String),
      env.fetch = .error msg →
      rest.Pairwise (fun e1 e2 => e1.symbol ≠ e2.symbol) →
      ((env.symbol, msg) ∈
        (runBatch (some jid) today (pre ++ env :: rest) st).errors) ∧
      (jid ∈ st.logs.map (fun l => l.id) →
        LogHasEntry (runBatch (some jid) today (pre ++ env :: rest) st).logs jid
          { level := "error"
            message := if tokenErrorHeuristic msg
              then ("Token authentication failed") else msg
            emiten := some env.symbol
            isTokenError := some (tokenErrorHeuristic msg) }) ∧
      (∀ e ∈ rest, ∀ (md : MarketDetectorResponse) (ob : OrderbookData)
          (sector : Option String) (bd : BrokerData),
        e.fetch = .ok md ob sector → getTopBroker md = some bd →
        e.saveError = none →
        HasDataRow (runBatch (some jid) today (pre ++ env :: rest) st).table
          (analysisData today e.symbol sector bd (buildMarketData ob)
            (calculateTargets (bd.rataRataBandar : ℚ) (bd.barangBandar : ℚ)
              (buildMarketData ob).offerTeratas (buildMarketData ob).bidTerbawah
              ((buildMarketData ob).totalBid / 100)
              ((buildMarketData ob).totalOffer / 100)
              (buildMarketData ob).harga))) := by
  intro jid today pre env rest st msg hf hpw
  rw [runBatch_append, runBatch_cons]
  refine ⟨?_, ?_, ?_⟩
  · apply runBatch_errors_mono
    rw [processSymbol_error_errors _ _ _ _ _ hf]
    exact List.mem_append_right _ (by simp)
  · intro hjid
    apply runBatch_logHasEntry
    apply processSymbol_error_log _ _ _ _ _ hf
    rw [runBatch_ids]
    exact hjid
  · intro e he md ob sector bd hef heb hes
    obtain ⟨r1, r2, hrest⟩ := List.append_of_mem he
    subst hrest
    rw [runBatch_append, runBatch_cons]
    have hpw2 : ∀ e2 ∈ r2, e.symbol ≠ e2.symbol :=
      (List.pairwise_cons.mp (List.pairwise_append.mp hpw).2.1).1
    apply runBatch_hasDataRow
    · intro e2 he2
      exact hpw2 e2 he2
    · exact processSymbol_success_hasDataRow _ _ _ _ _ _ _ _ hef heb hes

/-- Demo scenario for the batch-isolation witness: one failing symbol
followed by one succeeding symbol, with a running job log of id 1. -/
def demoSoloResponse : MarketDetectorResponse :=
  { data := some
      { broker_summary := some
          { brokers_buy := some [demoBuyerBB]
            brokers_sell := none }
        bandar_detector := none } }

def demoFailEnv : SymbolEnv :=
  { symbol := "FAIL", fetch := .error ("HTTP 500") }

def demoGoodEnv : SymbolEnv :=
  { symbol := "BBCA", fetch := .ok demoSoloResponse demoOrderbook none }

def demoJobLogRow : JobLogRow :=
  { id := 1, job_name := "analyze-watchlist", status := "running"
    total_items := 2 }

def demoBatchStateLog : BatchState :=
  { table := [], nextId := 0, results := [], errors := []
    logs := [demoJobLogRow] }

lemma getTopBroker_demoSolo :
    getTopBroker demoSoloResponse = some
      { bandar := "BB", barangBandar := jsRound 50, rataRataBandar := jsRound 10 } :=
  topBrokerFromList_fst demoBuyerBB [] demoBuyerBB []
    (List.mergeSort_singleton demoBuyerBB)

/-- Witness for C1 on the demo scenario. -/
theorem batch_error_isolation_witness :
    (("FAIL", "HTTP 500") ∈
      (runBatch (some 1) ("2025-10-10")
        ([] ++ demoFailEnv :: [demoGoodEnv]) demoBatchStateLog).errors) ∧
    LogHasEntry (runBatch (some 1) ("2025-10-10")
        ([] ++ demoFailEnv :: [demoGoodEnv]) demoBatchStateLog).logs 1
      { level := "error"
        message := if tokenErrorHeuristic ("HTTP 500")
          then ("Token authentication failed") else ("HTTP 500")
        emiten := some ("FAIL")
        isTokenError := some (tokenErrorHeuristic ("HTTP 500")) } ∧
    HasDataRow (runBatch (some 1) ("2025-10-10")
        ([] ++ demoFailEnv :: [demoGoodEnv]) demoBatchStateLog).table
      (analysisData ("2025-10-10") ("BBCA") none
        { bandar := "BB", barangBandar := jsRound 50, rataRataBandar := jsRound 10 }
        (buildMarketData demoOrderbook)
        (calculateTargets
          (({ bandar := "BB", barangBandar := jsRound 50
              rataRataBandar := jsRound 10 } : BrokerData).rataRataBandar : ℚ)
          (({ bandar := "BB", barangBandar := jsRound 50
              rataRataBandar := jsRound 10 } : BrokerData).barangBandar : ℚ)
          (buildMarketData demoOrderbook).offerTeratas
          (buildMarketData demoOrderbook).bidTerbawah
          ((buildMarketData demoOrderbook).totalBid / 100)
          ((buildMarketData demoOrderbook).totalOffer / 100)
          (buildMarketData demoOrderbook).harga)) := by
  have h := batch_error_isolation 1 ("2025-10-10") [] demoFailEnv [demoGoodEnv]
    demoBatchStateLog ("HTTP 500") rfl (by simp [demoGoodEnv])
  exact ⟨h.1, h.2.1 (by simp [demoBatchStateLog, demoJobLogRow]),
    h.2.2 demoGoodEnv (by simp) demoSoloResponse demoOrderbook none
      { bandar := "BB", barangBandar := jsRound 50, rataRataBandar := jsRound 10 }
      rfl getTopBroker_demoSolo rfl⟩

end Adimology
